import Mathlib

/-!
# Verification of the fuzzy inference engine of `central-de-pecas-fuzzy`

The repository (`src/app.py`) builds a Mamdani fuzzy inference system with
three antecedent variables (`tempo_espera`, `fator_utilizacao`,
`numero_funcionarios`), one consequent variable (`numero_pecas`), sixteen
trapezoidal/triangular membership terms, four rules, and centroid
defuzzification over the discretized universe `np.arange(0, 1.2, 0.001)`
(1200 sample points `k/1000`, `k = 0, …, 1199`).

The engine itself lives in the `skfuzzy` library, which the repository only
calls; the numeric semantics of each engine piece is therefore modelled from
the natural-language spec (§4.1–§4.6), which describes exactly the
piecewise-linear membership functions, min/max rule evaluation, max
aggregation and discrete-centroid defuzzification of a Mamdani engine.  All
arithmetic is carried out exactly over `ℚ` (the spec's tolerance-free
idealization of the float computation).
-/

set_option maxRecDepth 8000

namespace CentralPecas

/-- Modelled from the spec (§4.1): `Triangle(a,b,c)` membership
(`skfuzzy.trimf`, called in `src/app.py` but implemented in the library):
0 for `x ≤ a` or `x ≥ c`, linear rise on `(a,b)`, value 1 at `x = b`,
linear fall on `(b,c)`; degenerate spans are instantaneous steps. -/
def trimf (a b c x : ℚ) : ℚ :=
  if x = b then 1
  else if a < x ∧ x < b then (x - a) / (b - a)
  else if b < x ∧ x < c then (c - x) / (c - b)
  else 0

/-- Modelled from the spec (§4.1): `Trapezoid(a,b,c,d)` membership
(`skfuzzy.trapmf`, called in `src/app.py` but implemented in the library):
0 for `x ≤ a` or `x ≥ d` (with value 1 at `x = a` when `a = b`: step),
linear rise on `(a,b)`, 1 on `[b,c]`, linear fall on `(c,d)`. -/
def trapmf (a b c d x : ℚ) : ℚ :=
  if x < a then 0
  else if x < b then (x - a) / (b - a)
  else if x ≤ c then 1
  else if x < d then (d - x) / (d - c)
  else 0

/-! ## The sixteen membership terms of `src/app.py` (lines 21–46) -/

/-- Source: `m['muito_pequeno'] = fuzz.trapmf(m.universe, [0, 0, 0.1, 0.3])`. -/
def m_muito_pequeno (x : ℚ) : ℚ := trapmf 0 0 (1/10) (3/10) x

/-- Source: `m['pequeno'] = fuzz.trimf(m.universe, [0.1, 0.3, 0.5])`. -/
def m_pequeno (x : ℚ) : ℚ := trimf (1/10) (3/10) (1/2) x

/-- Source: `m['medio'] = fuzz.trapmf(m.universe, [0.4, 0.6, 0.7, 0.7])`. -/
def m_medio (x : ℚ) : ℚ := trapmf (2/5) (3/5) (7/10) (7/10) x

/-- Source: `p['baixo'] = fuzz.trapmf(p.universe, [0, 0, 0.2, 0.4])`. -/
def p_baixo (x : ℚ) : ℚ := trapmf 0 0 (1/5) (2/5) x

/-- Source: `p['medio'] = fuzz.trimf(p.universe, [0.3, 0.5, 0.7])`. -/
def p_medio (x : ℚ) : ℚ := trimf (3/10) (1/2) (7/10) x

/-- Source: `p['alto'] = fuzz.trapmf(p.universe, [0.6, 0.8, 1, 1])`. -/
def p_alto (x : ℚ) : ℚ := trapmf (3/5) (4/5) 1 1 x

/-- Source: `s['pequeno'] = fuzz.trapmf(s.universe, [0, 0, 0.4, 0.6])`. -/
def s_pequeno (x : ℚ) : ℚ := trapmf 0 0 (2/5) (3/5) x

/-- Source: `s['medio'] = fuzz.trimf(s.universe, [0.4, 0.6, 0.8])`. -/
def s_medio (x : ℚ) : ℚ := trimf (2/5) (3/5) (4/5) x

/-- Source: `s['grande'] = fuzz.trapmf(s.universe, [0.6, 0.8, 1, 1])`. -/
def s_grande (x : ℚ) : ℚ := trapmf (3/5) (4/5) 1 1 x

/-- Source: `n['muito_pequeno'] = fuzz.trapmf(n.universe, [0, 0, 0.1, 0.3])`. -/
def n_muito_pequeno (x : ℚ) : ℚ := trapmf 0 0 (1/10) (3/10) x

/-- Source: `n['pequeno'] = fuzz.trimf(n.universe, [0, 0.2, 0.4])`. -/
def n_pequeno (x : ℚ) : ℚ := trimf 0 (1/5) (2/5) x

/-- Source: `n['pouco_pequeno'] = fuzz.trimf(n.universe, [0.25, 0.35, 0.45])`. -/
def n_pouco_pequeno (x : ℚ) : ℚ := trimf (1/4) (7/20) (9/20) x

/-- Source: `n['medio'] = fuzz.trimf(n.universe, [0.3, 0.5, 0.7])`. -/
def n_medio (x : ℚ) : ℚ := trimf (3/10) (1/2) (7/10) x

/-- Source: `n['pouco_grande'] = fuzz.trimf(n.universe, [0.55, 0.65, 0.75])`. -/
def n_pouco_grande (x : ℚ) : ℚ := trimf (11/20) (13/20) (3/4) x

/-- Source: `n['grande'] = fuzz.trimf(n.universe, [0.6, 0.8, 1])`. -/
def n_grande (x : ℚ) : ℚ := trimf (3/5) (4/5) 1 x

/-- Source: `n['muito_grande'] = fuzz.trapmf(n.universe, [0.7, 0.9, 1, 1])`. -/
def n_muito_grande (x : ℚ) : ℚ := trapmf (7/10) (9/10) 1 1 x

/-- Source: `np.arange(0, 1.2, 0.001)`: the shared 1200-point sample grid
`0, 0.001, …, 1.199` used by all four variables (`src/app.py` lines 21–39). -/
def universeGrid : List ℚ := (List.range 1200).map (fun k : ℕ => (k : ℚ) / 1000)

/-! ## Rules and the inference pipeline -/

/-- The crisp values bound to the three antecedent variables
(`src/app.py` lines 62–69). -/
structure Inputs where
  tempo_espera : ℚ
  fator_utilizacao : ℚ
  numero_funcionarios : ℚ

/-- Modelled from the spec (§3, §4.4): a rule antecedent is a tagged
expression tree over term degrees, combined with AND / OR.  In
`src/app.py` this tree is built with `skfuzzy`'s overloaded `&` operator
(lines 49–52); a leaf evaluates the named term's membership at that
variable's bound crisp input. -/
inductive FExpr where
  | term (deg : Inputs → ℚ)
  | and (e1 e2 : FExpr)
  | or (e1 e2 : FExpr)

/-- Modelled from the spec (§4.4): AND = minimum, OR = maximum, a single
term's degree is used directly. -/
def FExpr.eval : FExpr → Inputs → ℚ
  | .term deg, i => deg i
  | .and e1 e2, i => min (e1.eval i) (e2.eval i)
  | .or e1 e2, i => max (e1.eval i) (e2.eval i)

/-- An inference rule: antecedent expression plus the membership function of
the consequent term (`ctrl.Rule(antecedent, consequent)` in `src/app.py`). -/
structure Rule where
  antecedent : FExpr
  consequent : ℚ → ℚ

/-- The **firing strength** of a rule (spec §4.4). -/
def firingStrength (r : Rule) (i : Inputs) : ℚ := r.antecedent.eval i

/-- Modelled from the spec (§4.4): Mamdani min-implication — the rule's
implied fuzzy set is the pointwise minimum of its firing strength and its
consequent term's membership function. -/
def impliedSet (r : Rule) (i : Inputs) (x : ℚ) : ℚ :=
  min (firingStrength r i) (r.consequent x)

/-- Modelled from the spec (§4.5): the aggregate fuzzy set of the consequent
variable is the pointwise maximum of all rules' implied sets (0 when no rule
is present). -/
def aggregate (rules : List Rule) (i : Inputs) (x : ℚ) : ℚ :=
  (rules.map (fun r => impliedSet r i x)).foldr max 0

/-- Modelled from the spec (§7): error kinds of the engine.  The two
construction-time kinds cannot occur at runtime in this system. -/
inductive EngineError where
  | UnknownTerm
  | InvalidDomain
  | UnboundInput
  | DefuzzificationUndefined
deriving DecidableEq

/-- Source: `rule1 = ctrl.Rule(m['muito_pequeno'] & s['pequeno'], n['muito_grande'])`
(`src/app.py` line 49). -/
def rule1 : Rule :=
  { antecedent := .and (.term fun i => m_muito_pequeno i.tempo_espera)
      (.term fun i => s_pequeno i.numero_funcionarios)
    consequent := n_muito_grande }

/-- Source: `rule2 = ctrl.Rule(m['pequeno'] & s['grande'], n['pequeno'])`
(`src/app.py` line 50). -/
def rule2 : Rule :=
  { antecedent := .and (.term fun i => m_pequeno i.tempo_espera)
      (.term fun i => s_grande i.numero_funcionarios)
    consequent := n_pequeno }

/-- Source: `rule3 = ctrl.Rule(p['baixo'], n['pequeno'])` (`src/app.py` line 51). -/
def rule3 : Rule :=
  { antecedent := .term fun i => p_baixo i.fator_utilizacao
    consequent := n_pequeno }

/-- Source: `rule4 = ctrl.Rule(p['alto'], n['grande'])` (`src/app.py` line 52). -/
def rule4 : Rule :=
  { antecedent := .term fun i => p_alto i.fator_utilizacao
    consequent := n_grande }

/-- A linguistic variable: name, discretized universe, and the table of term
membership functions (spec §3; `ctrl.Antecedent` / `ctrl.Consequent` in
`src/app.py` lines 21–46). -/
structure LinguisticVar where
  name : String
  univGrid : List ℚ
  terms : List (String × (ℚ → ℚ))

/-- The antecedent variable `m` = `tempo_espera` (`src/app.py` lines 21–24). -/
def m_var : LinguisticVar :=
  { name := "tempo_espera", univGrid := universeGrid
    terms := [("muito_pequeno", m_muito_pequeno), ("pequeno", m_pequeno),
      ("medio", m_medio)] }

/-- The antecedent variable `p` = `fator_utilizacao`
(`src/app.py` lines 27–30). -/
def p_var : LinguisticVar :=
  { name := "fator_utilizacao", univGrid := universeGrid
    terms := [("baixo", p_baixo), ("medio", p_medio), ("alto", p_alto)] }

/-- The antecedent variable `s` = `numero_funcionarios`
(`src/app.py` lines 33–36). -/
def s_var : LinguisticVar :=
  { name := "numero_funcionarios", univGrid := universeGrid
    terms := [("pequeno", s_pequeno), ("medio", s_medio),
      ("grande", s_grande)] }

/-- The consequent variable `n` = `numero_pecas` (`src/app.py` lines 39–46). -/
def n_var : LinguisticVar :=
  { name := "numero_pecas", univGrid := universeGrid
    terms := [("muito_pequeno", n_muito_pequeno), ("pequeno", n_pequeno),
      ("pouco_pequeno", n_pouco_pequeno), ("medio", n_medio),
      ("pouco_grande", n_pouco_grande), ("grande", n_grande),
      ("muito_grande", n_muito_grande)] }

/-- The immutable inference-system definition (spec §3 `InferenceSystem`):
antecedent variables, the consequent variable, and the ordered rule list. -/
structure FuzzySystem where
  antecedents : List LinguisticVar
  consequent : LinguisticVar
  rules : List Rule

/-- Source: `system = ctrl.ControlSystem([rule1, rule2, rule3, rule4])`
(`src/app.py` line 55), together with the variable definitions it closes
over. -/
def system : FuzzySystem :=
  { antecedents := [m_var, p_var, s_var], consequent := n_var
    rules := [rule1, rule2, rule3, rule4] }

/-- Per-computation state (spec §3 `SimulationState`): the crisp inputs
bound via `sim.input[...]` (each `none` until bound) and the output slot
`sim.output["numero_pecas"]` (`none` until a compute succeeds). -/
structure SimulationState where
  tempo_espera : Option ℚ
  fator_utilizacao : Option ℚ
  numero_funcionarios : Option ℚ
  numero_pecas : Option ℚ

/-- Modelled from the spec (§4.3): fuzzification requires every antecedent
variable to have a bound crisp value; otherwise `UnboundInput`. -/
def bindInputs (st : SimulationState) : Except EngineError Inputs :=
  match st.tempo_espera, st.fator_utilizacao, st.numero_funcionarios with
  | some a, some b, some c => .ok ⟨a, b, c⟩
  | _, _, _ => .error .UnboundInput

/-- Modelled from the spec (§4.6): discrete centroid defuzzification
`Σ (x * f x) / Σ (f x)` over the sample grid, failing with
`DefuzzificationUndefined` when the aggregate sums to zero. -/
def centroid (grid : List ℚ) (f : ℚ → ℚ) : Except EngineError ℚ :=
  if (grid.map f).sum = 0 then .error .DefuzzificationUndefined
  else .ok ((grid.map (fun x => x * f x)).sum / (grid.map f).sum)

/-- Modelled from the spec (§4.7): `compute()` = fuzzification → rule
evaluation → aggregation → centroid defuzzification of the single
consequent variable. -/
def computeOutput (sys : FuzzySystem) (st : SimulationState) :
    Except EngineError ℚ :=
  match bindInputs st with
  | .error e => .error e
  | .ok i => centroid sys.consequent.univGrid (aggregate sys.rules i)

/-- Source: `safe_compute` (`src/app.py` lines 11–17) around `sim.compute()`: on
success the output slot of the simulation is filled and `True` is returned;
on any engine error the state is left as it was, the error is reported, and
`False` is returned.  The system is passed and returned explicitly to make
the frame effect of the call visible. -/
def safe_compute (sys : FuzzySystem) (sim : SimulationState) :
    FuzzySystem × SimulationState × Bool :=
  match computeOutput sys sim with
  | .ok v => (sys, { sim with numero_pecas := some v }, true)
  | .error _ => (sys, sim, false)

/-! ## Helper lemmas -/

theorem trimf_nonneg (a b c x : ℚ) : 0 ≤ trimf a b c x := by
  unfold trimf
  split_ifs with h1 h2 h3
  · norm_num
  · exact div_nonneg (by linarith [h2.1]) (by linarith [h2.1, h2.2])
  · exact div_nonneg (by linarith [h3.2]) (by linarith [h3.1, h3.2])
  · norm_num

theorem trimf_le_one (a b c x : ℚ) : trimf a b c x ≤ 1 := by
  unfold trimf
  split_ifs with h1 h2 h3
  · norm_num
  · rw [div_le_one (by linarith [h2.1, h2.2])]
    linarith [h2.2]
  · rw [div_le_one (by linarith [h3.1, h3.2])]
    linarith [h3.1]
  · norm_num

theorem trapmf_nonneg (a b c d x : ℚ) : 0 ≤ trapmf a b c d x := by
  unfold trapmf
  split_ifs with h1 h2 h3 h4
  · norm_num
  · exact div_nonneg (by linarith) (by linarith)
  · norm_num
  · exact div_nonneg (by linarith) (by linarith)
  · norm_num

theorem trapmf_le_one (a b c d x : ℚ) : trapmf a b c d x ≤ 1 := by
  unfold trapmf
  split_ifs with h1 h2 h3 h4
  · norm_num
  · rw [div_le_one (by linarith)]
    linarith
  · norm_num
  · rw [div_le_one (by linarith)]
    linarith
  · norm_num

theorem n_muito_grande_nonneg (x : ℚ) : 0 ≤ n_muito_grande x :=
  trapmf_nonneg _ _ _ _ x

theorem n_pequeno_nonneg (x : ℚ) : 0 ≤ n_pequeno x :=
  trimf_nonneg _ _ _ x

theorem n_grande_nonneg (x : ℚ) : 0 ≤ n_grande x :=
  trimf_nonneg _ _ _ x

theorem n_pequeno_le_one (x : ℚ) : n_pequeno x ≤ 1 :=
  trimf_le_one _ _ _ x

/-- When all four rules have firing strength 0, the aggregate fuzzy set of
`numero_pecas` is identically zero (each implied set is `min 0 mf = 0`). -/
theorem aggregate_zero_of_strengths (i : Inputs)
    (h1 : firingStrength rule1 i = 0) (h2 : firingStrength rule2 i = 0)
    (h3 : firingStrength rule3 i = 0) (h4 : firingStrength rule4 i = 0) :
    ∀ x : ℚ, aggregate system.rules i x = 0 := by
  intro x
  show max (min (firingStrength rule1 i) (n_muito_grande x))
      (max (min (firingStrength rule2 i) (n_pequeno x))
        (max (min (firingStrength rule3 i) (n_pequeno x))
          (max (min (firingStrength rule4 i) (n_grande x)) 0))) = 0
  rw [h1, h2, h3, h4, min_eq_left (n_muito_grande_nonneg x),
    min_eq_left (n_pequeno_nonneg x), min_eq_left (n_grande_nonneg x)]
  simp

/-- An identically-zero aggregate makes `compute()` fail with
`DefuzzificationUndefined`. -/
theorem computeOutput_defuzz_error (st : SimulationState) (i : Inputs)
    (hbind : bindInputs st = .ok i)
    (hagg : ∀ x : ℚ, aggregate system.rules i x = 0) :
    computeOutput system st = .error .DefuzzificationUndefined := by
  unfold computeOutput
  rw [hbind]
  show centroid universeGrid (aggregate system.rules i) =
    .error .DefuzzificationUndefined
  rw [funext hagg]
  have hz : (universeGrid.map (fun _ => (0 : ℚ))).sum = 0 := by simp
  rw [centroid, if_pos hz]

theorem foldr_max_perm {l1 l2 : List ℚ} (h : l1.Perm l2) (b : ℚ) :
    l1.foldr max b = l2.foldr max b := by
  induction h with
  | nil => rfl
  | cons x _ ih => simp only [List.foldr_cons, ih]
  | swap x y l => simp only [List.foldr_cons]; rw [max_left_comm]
  | trans _ _ ih1 ih2 => rw [ih1, ih2]

/-! ## Claim theorems -/

/-- C2: for the term `muito_pequeno` of `tempo_espera`, defined as
`Trapezoid(0, 0, 0.1, 0.3)`, the membership degree at `x = 0.05` equals 1,
at `x = 0.2` equals `(0.3 - 0.2)/(0.3 - 0.1) = 0.5`, and at `x = 0.4`
equals 0. -/
theorem muito_pequeno_concrete_degrees :
    m_muito_pequeno (1/20) = 1 ∧ m_muito_pequeno (1/5) = 1/2 ∧
      m_muito_pequeno (2/5) = 0 := by
  refine ⟨?_, ?_, ?_⟩ <;> norm_num [m_muito_pequeno, trapmf]

/-- C8: membership evaluation is total and in range: every one of the
sixteen defined terms — including the trapezoids with degenerate spans
`a = b` (e.g. `[0, 0, 0.1, 0.3]`) and `c = d` (e.g. `[0.6, 0.8, 1, 1]`,
`[0.4, 0.6, 0.7, 0.7]`) — evaluates at every rational `x` to a value in
`[0, 1]`.  (Totality and absence of side effects are inherent to `trimf`
and `trapmf` being plain functions; no branch divides by a zero span.) -/
theorem membership_total_in_unit_interval : ∀ x : ℚ,
    (0 ≤ m_muito_pequeno x ∧ m_muito_pequeno x ≤ 1) ∧
    (0 ≤ m_pequeno x ∧ m_pequeno x ≤ 1) ∧
    (0 ≤ m_medio x ∧ m_medio x ≤ 1) ∧
    (0 ≤ p_baixo x ∧ p_baixo x ≤ 1) ∧
    (0 ≤ p_medio x ∧ p_medio x ≤ 1) ∧
    (0 ≤ p_alto x ∧ p_alto x ≤ 1) ∧
    (0 ≤ s_pequeno x ∧ s_pequeno x ≤ 1) ∧
    (0 ≤ s_medio x ∧ s_medio x ≤ 1) ∧
    (0 ≤ s_grande x ∧ s_grande x ≤ 1) ∧
    (0 ≤ n_muito_pequeno x ∧ n_muito_pequeno x ≤ 1) ∧
    (0 ≤ n_pequeno x ∧ n_pequeno x ≤ 1) ∧
    (0 ≤ n_pouco_pequeno x ∧ n_pouco_pequeno x ≤ 1) ∧
    (0 ≤ n_medio x ∧ n_medio x ≤ 1) ∧
    (0 ≤ n_pouco_grande x ∧ n_pouco_grande x ≤ 1) ∧
    (0 ≤ n_grande x ∧ n_grande x ≤ 1) ∧
    (0 ≤ n_muito_grande x ∧ n_muito_grande x ≤ 1) := by
  intro x
  unfold m_muito_pequeno m_pequeno m_medio p_baixo p_medio p_alto s_pequeno
    s_medio s_grande n_muito_pequeno n_pequeno n_pouco_pequeno n_medio
    n_pouco_grande n_grande n_muito_grande
  exact ⟨⟨trapmf_nonneg .., trapmf_le_one ..⟩, ⟨trimf_nonneg .., trimf_le_one ..⟩,
    ⟨trapmf_nonneg .., trapmf_le_one ..⟩, ⟨trapmf_nonneg .., trapmf_le_one ..⟩,
    ⟨trimf_nonneg .., trimf_le_one ..⟩, ⟨trapmf_nonneg .., trapmf_le_one ..⟩,
    ⟨trapmf_nonneg .., trapmf_le_one ..⟩, ⟨trimf_nonneg .., trimf_le_one ..⟩,
    ⟨trapmf_nonneg .., trapmf_le_one ..⟩, ⟨trapmf_nonneg .., trapmf_le_one ..⟩,
    ⟨trimf_nonneg .., trimf_le_one ..⟩, ⟨trimf_nonneg .., trimf_le_one ..⟩,
    ⟨trimf_nonneg .., trimf_le_one ..⟩, ⟨trimf_nonneg .., trimf_le_one ..⟩,
    ⟨trimf_nonneg .., trimf_le_one ..⟩, ⟨trapmf_nonneg .., trapmf_le_one ..⟩⟩

/-- C6: if `compute()` is invoked while some antecedent variable has no
crisp input bound in the simulation state, it fails with `UnboundInput`
(for any system) — no default or zero value is substituted. -/
theorem compute_unbound_input (sys : FuzzySystem) (st : SimulationState)
    (h : st.tempo_espera = none ∨ st.fator_utilizacao = none ∨
      st.numero_funcionarios = none) :
    computeOutput sys st = .error .UnboundInput := by
  obtain ⟨t, f, nf, o⟩ := st
  rcases h with h | h | h
  · cases t
    · rfl
    · simp at h
  · cases f
    · cases t <;> rfl
    · simp at h
  · cases nf
    · cases t <;> cases f <;> rfl
    · simp at h

/-- Witness for C6: computing with no input bound at all errors with
`UnboundInput`. -/
theorem compute_unbound_input_witness :
    computeOutput system ⟨none, none, none, none⟩ = .error .UnboundInput :=
  compute_unbound_input system ⟨none, none, none, none⟩ (Or.inl rfl)

/-- C9: a `compute()` call mutates only the per-call simulation state —
and there only the output slot — while the inference-system definition
(antecedent variables with their universes and membership tables, the
consequent variable, and the rule list) is returned unchanged. -/
theorem compute_preserves_system (sys : FuzzySystem) (sim : SimulationState) :
    (safe_compute sys sim).1 = sys ∧
    (safe_compute sys sim).1.antecedents = sys.antecedents ∧
    (safe_compute sys sim).1.consequent = sys.consequent ∧
    (safe_compute sys sim).1.rules = sys.rules ∧
    (safe_compute sys sim).2.1.tempo_espera = sim.tempo_espera ∧
    (safe_compute sys sim).2.1.fator_utilizacao = sim.fator_utilizacao ∧
    (safe_compute sys sim).2.1.numero_funcionarios = sim.numero_funcionarios := by
  unfold safe_compute
  cases computeOutput sys sim <;> simp

/-- C10: `safe_compute` never propagates an engine error to its caller: it
returns `true` exactly when the underlying `compute()` succeeds and `false`
exactly when `compute()` fails with some engine error. -/
theorem safe_compute_total_report (sys : FuzzySystem) (sim : SimulationState) :
    ((safe_compute sys sim).2.2 = true ↔ ∃ v, computeOutput sys sim = .ok v) ∧
    ((safe_compute sys sim).2.2 = false ↔
      ∃ e, computeOutput sys sim = .error e) := by
  unfold safe_compute
  cases h : computeOutput sys sim <;> simp

/-- C3: rule antecedent evaluation uses the minimum of the operand degrees
for AND, the maximum for OR, and the degree itself for a single-term
antecedent; and for every rule of the system the resulting firing strength
lies in `[0, 1]` at every input. -/
theorem firing_strength_minmax_in_unit :
    (∀ (deg : Inputs → ℚ) (i : Inputs), (FExpr.term deg).eval i = deg i) ∧
    (∀ (e1 e2 : FExpr) (i : Inputs),
      (FExpr.and e1 e2).eval i = min (e1.eval i) (e2.eval i)) ∧
    (∀ (e1 e2 : FExpr) (i : Inputs),
      (FExpr.or e1 e2).eval i = max (e1.eval i) (e2.eval i)) ∧
    (∀ r ∈ system.rules, ∀ i : Inputs,
      0 ≤ firingStrength r i ∧ firingStrength r i ≤ 1) := by
  refine ⟨fun _ _ => rfl, fun _ _ _ => rfl, fun _ _ _ => rfl, ?_⟩
  intro r hr i
  have hmem : r = rule1 ∨ r = rule2 ∨ r = rule3 ∨ r = rule4 := by
    simpa [system] using hr
  rcases hmem with rfl | rfl | rfl | rfl <;>
    simp only [firingStrength, rule1, rule2, rule3, rule4, FExpr.eval,
      m_muito_pequeno, m_pequeno, s_pequeno, s_grande, p_baixo, p_alto]
  · exact ⟨le_min (trapmf_nonneg ..) (trapmf_nonneg ..),
      (min_le_left ..).trans (trapmf_le_one ..)⟩
  · exact ⟨le_min (trimf_nonneg ..) (trapmf_nonneg ..),
      (min_le_left ..).trans (trimf_le_one ..)⟩
  · exact ⟨trapmf_nonneg .., trapmf_le_one ..⟩
  · exact ⟨trapmf_nonneg .., trapmf_le_one ..⟩

/-- Witness for C3: `rule3` is a rule of the system and its firing strength
at the concrete input `(0.3, 0.3, 0.3)` lies in `[0, 1]`. -/
theorem firing_strength_minmax_in_unit_witness :
    rule3 ∈ system.rules ∧
    (0 ≤ firingStrength rule3 ⟨3/10, 3/10, 3/10⟩ ∧
      firingStrength rule3 ⟨3/10, 3/10, 3/10⟩ ≤ 1) :=
  ⟨by simp [system],
    firing_strength_minmax_in_unit.2.2.2 rule3 (by simp [system]) ⟨3/10, 3/10, 3/10⟩⟩

/-- C1: whenever all rules targeting `numero_pecas` have firing strength 0,
the aggregate fuzzy set is identically zero and `compute()` fails with
`DefuzzificationUndefined` — it never returns `ok` with any substituted
numeric output. -/
theorem zero_firing_defuzzification_error (st : SimulationState) (i : Inputs)
    (hbind : bindInputs st = .ok i)
    (h1 : firingStrength rule1 i = 0) (h2 : firingStrength rule2 i = 0)
    (h3 : firingStrength rule3 i = 0) (h4 : firingStrength rule4 i = 0) :
    (∀ x : ℚ, aggregate system.rules i x = 0) ∧
    computeOutput system st = .error .DefuzzificationUndefined ∧
    ∀ v : ℚ, computeOutput system st ≠ .ok v := by
  have hagg := aggregate_zero_of_strengths i h1 h2 h3 h4
  have herr := computeOutput_defuzz_error st i hbind hagg
  refine ⟨hagg, herr, fun v hv => ?_⟩
  rw [herr] at hv
  exact Except.noConfusion hv

/-- Witness for C1: with inputs `(0.5, 0.5, 0.5)` all four firing strengths
are 0 and `compute()` fails with `DefuzzificationUndefined`. -/
theorem zero_firing_defuzzification_error_witness :
    bindInputs ⟨some (1/2), some (1/2), some (1/2), none⟩ =
      .ok ⟨1/2, 1/2, 1/2⟩ ∧
    firingStrength rule1 ⟨1/2, 1/2, 1/2⟩ = 0 ∧
    firingStrength rule2 ⟨1/2, 1/2, 1/2⟩ = 0 ∧
    firingStrength rule3 ⟨1/2, 1/2, 1/2⟩ = 0 ∧
    firingStrength rule4 ⟨1/2, 1/2, 1/2⟩ = 0 ∧
    computeOutput system ⟨some (1/2), some (1/2), some (1/2), none⟩ =
      .error .DefuzzificationUndefined := by
  have h1 : firingStrength rule1 ⟨1/2, 1/2, 1/2⟩ = 0 := by
    norm_num [firingStrength, rule1, FExpr.eval, m_muito_pequeno, s_pequeno,
      trapmf, min_def]
  have h2 : firingStrength rule2 ⟨1/2, 1/2, 1/2⟩ = 0 := by
    norm_num [firingStrength, rule2, FExpr.eval, m_pequeno, s_grande,
      trimf, trapmf, min_def]
  have h3 : firingStrength rule3 ⟨1/2, 1/2, 1/2⟩ = 0 := by
    norm_num [firingStrength, rule3, FExpr.eval, p_baixo, trapmf]
  have h4 : firingStrength rule4 ⟨1/2, 1/2, 1/2⟩ = 0 := by
    norm_num [firingStrength, rule4, FExpr.eval, p_alto, trapmf]
  exact ⟨rfl, h1, h2, h3, h4,
    (zero_firing_defuzzification_error
      ⟨some (1/2), some (1/2), some (1/2), none⟩ ⟨1/2, 1/2, 1/2⟩ rfl
      h1 h2 h3 h4).2.1⟩

/-- C7: a valid input assignment with all three antecedents in `[0, 1]` —
`tempo_espera = 0.6`, `fator_utilizacao = 0.5`, `numero_funcionarios = 0.3`
— gives every one of the four rules firing strength 0, so the aggregate for
`numero_pecas` is identically zero and defuzzification is undefined. -/
theorem rule_base_gap_zero_aggregate :
    ((0 : ℚ) ≤ 3/5 ∧ (3 : ℚ)/5 ≤ 1) ∧ ((0 : ℚ) ≤ 1/2 ∧ (1 : ℚ)/2 ≤ 1) ∧
    ((0 : ℚ) ≤ 3/10 ∧ (3 : ℚ)/10 ≤ 1) ∧
    firingStrength rule1 ⟨3/5, 1/2, 3/10⟩ = 0 ∧
    firingStrength rule2 ⟨3/5, 1/2, 3/10⟩ = 0 ∧
    firingStrength rule3 ⟨3/5, 1/2, 3/10⟩ = 0 ∧
    firingStrength rule4 ⟨3/5, 1/2, 3/10⟩ = 0 ∧
    (∀ x : ℚ, aggregate system.rules ⟨3/5, 1/2, 3/10⟩ x = 0) ∧
    computeOutput system ⟨some (3/5), some (1/2), some (3/10), none⟩ =
      .error .DefuzzificationUndefined := by
  have h1 : firingStrength rule1 ⟨3/5, 1/2, 3/10⟩ = 0 := by
    norm_num [firingStrength, rule1, FExpr.eval, m_muito_pequeno, s_pequeno,
      trapmf, min_def]
  have h2 : firingStrength rule2 ⟨3/5, 1/2, 3/10⟩ = 0 := by
    norm_num [firingStrength, rule2, FExpr.eval, m_pequeno, s_grande,
      trimf, trapmf, min_def]
  have h3 : firingStrength rule3 ⟨3/5, 1/2, 3/10⟩ = 0 := by
    norm_num [firingStrength, rule3, FExpr.eval, p_baixo, trapmf]
  have h4 : firingStrength rule4 ⟨3/5, 1/2, 3/10⟩ = 0 := by
    norm_num [firingStrength, rule4, FExpr.eval, p_alto, trapmf]
  have hagg := aggregate_zero_of_strengths ⟨3/5, 1/2, 3/10⟩ h1 h2 h3 h4
  exact ⟨by norm_num, by norm_num, by norm_num, h1, h2, h3, h4, hagg,
    computeOutput_defuzz_error ⟨some (3/5), some (1/2), some (3/10), none⟩
      ⟨3/5, 1/2, 3/10⟩ rfl hagg⟩

/-- C4: permuting the rule list leaves both the aggregate fuzzy set of
`numero_pecas` and the defuzzified `compute()` output unchanged (exactly,
in the rational model). -/
theorem compute_rule_order_invariant (sys : FuzzySystem) (rl : List Rule)
    (h : sys.rules.Perm rl) :
    (∀ (i : Inputs) (x : ℚ), aggregate sys.rules i x = aggregate rl i x) ∧
    (∀ st : SimulationState,
      computeOutput sys st = computeOutput { sys with rules := rl } st) := by
  have hagg : ∀ (i : Inputs) (x : ℚ),
      aggregate sys.rules i x = aggregate rl i x :=
    fun i x => foldr_max_perm (h.map _) 0
  refine ⟨hagg, fun st => ?_⟩
  unfold computeOutput
  cases hb : bindInputs st with
  | error e => rfl
  | ok i =>
    show centroid sys.consequent.univGrid (aggregate sys.rules i) =
      centroid sys.consequent.univGrid (aggregate rl i)
    rw [funext (fun x => hagg i x)]

/-- Witness for C4: swapping the first two rules of the system leaves the
computed output at inputs `(0.3, 0.3, 0.3)` unchanged. -/
theorem compute_rule_order_invariant_witness :
    system.rules.Perm [rule2, rule1, rule3, rule4] ∧
    computeOutput system ⟨some (3/10), some (3/10), some (3/10), none⟩ =
      computeOutput { system with rules := [rule2, rule1, rule3, rule4] }
        ⟨some (3/10), some (3/10), some (3/10), none⟩ := by
  have hperm : system.rules.Perm [rule2, rule1, rule3, rule4] :=
    List.Perm.swap rule2 rule1 [rule3, rule4]
  exact ⟨hperm, (compute_rule_order_invariant system _ hperm).2 _⟩

/-! ## Centroid of the `n_pequeno` triangle -/

theorem list_range_map_sum (f : ℕ → ℚ) (nn : ℕ) :
    ((List.range nn).map f).sum = ∑ k in Finset.range nn, f k := by
  induction nn with
  | zero => rfl
  | succ m ih =>
    rw [List.range_succ, List.map_append, List.sum_append,
      Finset.sum_range_succ, ih]
    simp

/-- The triangle `Triangle(0, 0.2, 0.4)` is symmetric about its peak `0.2`. -/
theorem n_pequeno_symm (x : ℚ) : n_pequeno (2/5 - x) = n_pequeno x := by
  unfold n_pequeno trimf
  rcases eq_or_ne x (1/5 : ℚ) with heq | hne
  · subst heq
    norm_num
  rcases le_or_lt x 0 with h0 | h0
  · rw [if_neg (show ¬(2/5 - x = 1/5) by intro h; apply hne; linarith),
      if_neg (show ¬((0:ℚ) < 2/5 - x ∧ 2/5 - x < 1/5) by
        rintro ⟨-, hb⟩; linarith),
      if_neg (show ¬((1:ℚ)/5 < 2/5 - x ∧ 2/5 - x < 2/5) by
        rintro ⟨-, hb⟩; linarith),
      if_neg hne,
      if_neg (show ¬((0:ℚ) < x ∧ x < 1/5) by rintro ⟨ha, -⟩; linarith),
      if_neg (show ¬((1:ℚ)/5 < x ∧ x < 2/5) by rintro ⟨ha, -⟩; linarith)]
  rcases lt_trichotomy x (1/5 : ℚ) with h1 | h1 | h1
  · rw [if_neg (show ¬(2/5 - x = 1/5) by intro h; apply hne; linarith),
      if_neg (show ¬((0:ℚ) < 2/5 - x ∧ 2/5 - x < 1/5) by
        rintro ⟨-, hb⟩; linarith),
      if_pos (show (1:ℚ)/5 < 2/5 - x ∧ 2/5 - x < 2/5 from
        ⟨by linarith, by linarith⟩),
      if_neg hne,
      if_pos (show (0:ℚ) < x ∧ x < 1/5 from ⟨h0, h1⟩)]
    have hnum : (2:ℚ)/5 - (2/5 - x) = x := by ring
    rw [hnum]
    norm_num
  · exact absurd h1 hne
  rcases lt_or_le x (2/5 : ℚ) with h2 | h2
  · rw [if_neg (show ¬(2/5 - x = 1/5) by intro h; apply hne; linarith),
      if_pos (show (0:ℚ) < 2/5 - x ∧ 2/5 - x < 1/5 from
        ⟨by linarith, by linarith⟩),
      if_neg hne,
      if_neg (show ¬((0:ℚ) < x ∧ x < 1/5) by rintro ⟨-, hb⟩; linarith),
      if_pos (show (1:ℚ)/5 < x ∧ x < 2/5 from ⟨h1, h2⟩)]
    norm_num
  · rw [if_neg (show ¬(2/5 - x = 1/5) by intro h; apply hne; linarith),
      if_neg (show ¬((0:ℚ) < 2/5 - x ∧ 2/5 - x < 1/5) by
        rintro ⟨ha, -⟩; linarith),
      if_neg (show ¬((1:ℚ)/5 < 2/5 - x ∧ 2/5 - x < 2/5) by
        rintro ⟨ha, -⟩; linarith),
      if_neg hne,
      if_neg (show ¬((0:ℚ) < x ∧ x < 1/5) by rintro ⟨-, hb⟩; linarith),
      if_neg (show ¬((1:ℚ)/5 < x ∧ x < 2/5) by rintro ⟨-, hb⟩; linarith)]

/-- The triangle `Triangle(0, 0.2, 0.4)` vanishes from `0.4` on. -/
theorem n_pequeno_zero_right (x : ℚ) (h : 2/5 ≤ x) : n_pequeno x = 0 := by
  unfold n_pequeno trimf
  rw [if_neg (show ¬(x = 1/5) by intro hx; linarith),
    if_neg (show ¬((0:ℚ) < x ∧ x < 1/5) by rintro ⟨-, hb⟩; linarith),
    if_neg (show ¬((1:ℚ)/5 < x ∧ x < 2/5) by rintro ⟨-, hb⟩; linarith)]

theorem n_pequeno_gridsum_ge_one :
    1 ≤ ∑ k in Finset.range 1200, n_pequeno ((k : ℚ)/1000) := by
  have h200 : n_pequeno ((200 : ℚ)/1000) = 1 := by
    norm_num [n_pequeno, trimf]
  have hmem : (200 : ℕ) ∈ Finset.range 1200 := Finset.mem_range.mpr (by norm_num)
  have hle := @Finset.single_le_sum ℕ ℚ _
    (fun k : ℕ => n_pequeno ((k : ℚ)/1000)) (Finset.range 1200)
    (fun k _ => n_pequeno_nonneg ((k : ℚ)/1000)) 200 hmem
  simpa [h200] using hle

/-- The first moment of the sampled triangle about its peak vanishes. -/
theorem n_pequeno_moment_zero :
    ∑ k in Finset.range 1200,
      ((k : ℚ)/1000 - 1/5) * n_pequeno ((k : ℚ)/1000) = 0 := by
  have hsplit :
      (∑ k in Finset.range 401,
        ((k : ℚ)/1000 - 1/5) * n_pequeno ((k : ℚ)/1000))
      + ∑ k in Finset.Ico (401 : ℕ) 1200,
        ((k : ℚ)/1000 - 1/5) * n_pequeno ((k : ℚ)/1000)
      = ∑ k in Finset.range 1200,
        ((k : ℚ)/1000 - 1/5) * n_pequeno ((k : ℚ)/1000) := by
    rw [Finset.range_eq_Ico]
    exact Finset.sum_Ico_consecutive _ (by norm_num) (by norm_num)
  have htail : ∑ k in Finset.Ico (401 : ℕ) 1200,
      ((k : ℚ)/1000 - 1/5) * n_pequeno ((k : ℚ)/1000) = 0 := by
    refine Finset.sum_eq_zero fun k hk => ?_
    have hk1 : (401 : ℕ) ≤ k := (Finset.mem_Ico.mp hk).1
    have hk2 : (401 : ℚ) ≤ (k : ℚ) := by exact_mod_cast hk1
    rw [n_pequeno_zero_right ((k : ℚ)/1000) (by linarith), mul_zero]
  have hhead : ∑ k in Finset.range 401,
      ((k : ℚ)/1000 - 1/5) * n_pequeno ((k : ℚ)/1000) = 0 := by
    have hrefl := Finset.sum_range_reflect
      (fun j => ((j : ℚ)/1000 - 1/5) * n_pequeno ((j : ℚ)/1000)) 401
    have hneg : ∀ j ∈ Finset.range 401,
        (((401 - 1 - j : ℕ) : ℚ)/1000 - 1/5)
          * n_pequeno (((401 - 1 - j : ℕ) : ℚ)/1000)
        = -(((j : ℚ)/1000 - 1/5) * n_pequeno ((j : ℚ)/1000)) := by
      intro j hj
      have hj400 : j ≤ 400 := Nat.lt_succ_iff.mp (Finset.mem_range.mp hj)
      have hcast : ((401 - 1 - j : ℕ) : ℚ) = 400 - (j : ℚ) := by
        rw [show (401 - 1 - j : ℕ) = 400 - j from rfl, Nat.cast_sub hj400]
        norm_num
      rw [hcast, show (400 - (j : ℚ))/1000 = 2/5 - (j : ℚ)/1000 from by ring,
        n_pequeno_symm ((j : ℚ)/1000)]
      ring
    rw [Finset.sum_congr rfl hneg, Finset.sum_neg_distrib] at hrefl
    linarith
  linarith

/-- The discrete centroid of `Triangle(0, 0.2, 0.4)` over the 1200-point
grid is exactly its peak `0.2`. -/
theorem centroid_n_pequeno : centroid universeGrid n_pequeno = .ok (1/5) := by
  have hmapf : (universeGrid.map n_pequeno).sum
      = ∑ k in Finset.range 1200, n_pequeno ((k : ℚ)/1000) := by
    rw [universeGrid, List.map_map]
    exact list_range_map_sum _ 1200
  have hmapxf : (universeGrid.map (fun x => x * n_pequeno x)).sum
      = ∑ k in Finset.range 1200, ((k : ℚ)/1000) * n_pequeno ((k : ℚ)/1000) := by
    rw [universeGrid, List.map_map]
    exact list_range_map_sum _ 1200
  have hS := n_pequeno_gridsum_ge_one
  have hM : ∑ k in Finset.range 1200,
      ((k : ℚ)/1000) * n_pequeno ((k : ℚ)/1000)
      = (1/5) * ∑ k in Finset.range 1200, n_pequeno ((k : ℚ)/1000) := by
    have hmom := n_pequeno_moment_zero
    have hexp : ∀ k ∈ Finset.range 1200,
        ((k : ℚ)/1000 - 1/5) * n_pequeno ((k : ℚ)/1000)
        = ((k : ℚ)/1000) * n_pequeno ((k : ℚ)/1000)
          - (1/5) * n_pequeno ((k : ℚ)/1000) := fun k _ => by ring
    rw [Finset.sum_congr rfl hexp, Finset.sum_sub_distrib,
      ← Finset.mul_sum] at hmom
    linarith
  rw [centroid, hmapf, hmapxf, if_neg (by intro h; rw [h] at hS; linarith),
    hM, mul_div_assoc,
    div_self (ne_of_gt (lt_of_lt_of_le zero_lt_one hS)), mul_one]

/-- With `fator_utilizacao = 0` and rules 1–2 not firing, the aggregate of
`numero_pecas` is exactly the `n_pequeno` triangle (rule 3 fires fully,
rule 4 not at all). -/
theorem aggregate_baixo_full (i : Inputs) (hp : i.fator_utilizacao = 0)
    (h1 : firingStrength rule1 i = 0) (h2 : firingStrength rule2 i = 0) :
    ∀ x : ℚ, aggregate system.rules i x = n_pequeno x := by
  intro x
  have h3 : firingStrength rule3 i = 1 := by
    norm_num [firingStrength, rule3, FExpr.eval, hp, p_baixo, trapmf]
  have h4 : firingStrength rule4 i = 0 := by
    norm_num [firingStrength, rule4, FExpr.eval, hp, p_alto, trapmf]
  show max (min (firingStrength rule1 i) (n_muito_grande x))
      (max (min (firingStrength rule2 i) (n_pequeno x))
        (max (min (firingStrength rule3 i) (n_pequeno x))
          (max (min (firingStrength rule4 i) (n_grande x)) 0))) = n_pequeno x
  rw [h1, h2, h3, h4, min_eq_left (n_muito_grande_nonneg x),
    min_eq_left (n_pequeno_nonneg x), min_eq_right (n_pequeno_le_one x),
    min_eq_left (n_grande_nonneg x), max_self,
    max_eq_left (n_pequeno_nonneg x), max_eq_right (n_pequeno_nonneg x),
    max_eq_right (n_pequeno_nonneg x)]

/-- C5: when only the rules `p.baixo → n.pequeno` and `p.alto → n.grande`
can contribute (rules 1–2 have firing strength 0) and
`fator_utilizacao = 0` (degree 1 in `baixo`), `compute()` for
`numero_pecas` equals the centroid of `Triangle(0, 0.2, 0.4)`, i.e. `0.2`;
centroid defuzzification of that single symmetric triangular aggregate
returns its peak x-coordinate. -/
theorem compute_baixo_centroid (st : SimulationState) (i : Inputs)
    (hbind : bindInputs st = .ok i) (hp : i.fator_utilizacao = 0)
    (h1 : firingStrength rule1 i = 0) (h2 : firingStrength rule2 i = 0) :
    centroid universeGrid n_pequeno = .ok (1/5) ∧
    computeOutput system st = .ok (1/5) := by
  refine ⟨centroid_n_pequeno, ?_⟩
  unfold computeOutput
  rw [hbind]
  show centroid universeGrid (aggregate system.rules i) = .ok (1/5)
  rw [funext (aggregate_baixo_full i hp h1 h2)]
  exact centroid_n_pequeno

/-- Witness for C5: at inputs `(0.3, 0, 0.3)` rules 1–2 do not fire,
`fator_utilizacao = 0`, and `compute()` returns exactly `0.2`. -/
theorem compute_baixo_centroid_witness :
    bindInputs ⟨some (3/10), some 0, some (3/10), none⟩ =
      .ok ⟨3/10, 0, 3/10⟩ ∧
    (⟨3/10, 0, 3/10⟩ : Inputs).fator_utilizacao = 0 ∧
    firingStrength rule1 ⟨3/10, 0, 3/10⟩ = 0 ∧
    firingStrength rule2 ⟨3/10, 0, 3/10⟩ = 0 ∧
    computeOutput system ⟨some (3/10), some 0, some (3/10), none⟩ =
      .ok (1/5) := by
  have h1 : firingStrength rule1 ⟨3/10, 0, 3/10⟩ = 0 := by
    norm_num [firingStrength, rule1, FExpr.eval, m_muito_pequeno, s_pequeno,
      trapmf, min_def]
  have h2 : firingStrength rule2 ⟨3/10, 0, 3/10⟩ = 0 := by
    norm_num [firingStrength, rule2, FExpr.eval, m_pequeno, s_grande,
      trimf, trapmf, min_def]
  exact ⟨rfl, rfl, h1, h2,
    (compute_baixo_centroid ⟨some (3/10), some 0, some (3/10), none⟩
      ⟨3/10, 0, 3/10⟩ rfl rfl h1 h2).2⟩

end CentralPecas
